import Mathlib

/-!
Shallow embedding of the mcp-client dispatcher (src/src/index.ts and its
variants src/unnamed/part_000, src/unnamed/part_001).

The program aggregates tool catalogs from configured MCP backends over a
subprocess transport, asks an external classifier (a ranked list of model
tiers) to pick one tool, normalizes the chosen arguments, and invokes the
tool on its owning backend, returning the trimmed text segments of the
response.

Effects (spawn/connect, listTools, close, classifier calls, callTool) are
made explicit as an event trace; the external world is a parameter:
a listing environment maps a backend key to its listTools outcome, a call
environment maps (backend key, tool name, args) to a callTool outcome, and
the classifier oracle maps a model tier to an optional structured tool
call.  Fallible steps return Except; throwing in the source is modelled as
an error value that aborts the surrounding computation exactly where the
exception would propagate.
-/

set_option autoImplicit false

namespace McpClient

deriving instance DecidableEq for Except

/-- JSON-like argument values as they appear after JSON.parse in the
source; truthiness mirrors JavaScript. -/
inductive Value where
  | vStr (s : String)
  | vNum (n : Int)
  | vBool (b : Bool)
  | vNull
  deriving DecidableEq, Repr

/-- An arguments object: ordered key/value pairs, as a JS object literal
(keys unique in practice; assignment keeps position, new keys append). -/
abbrev ArgsMap := List (String × Value)

/-- JS property read: first binding of the key, if any. -/
def getArg : ArgsMap → String → Option Value
  | [], _ => none
  | (k2, v) :: rest, k => if k2 = k then some v else getArg rest k

/-- JS property assignment on an object copy: update in place if the key
exists, else append at the end. -/
def setArg (k : String) (v : Value) : ArgsMap → ArgsMap
  | [] => [(k, v)]
  | (k2, v2) :: rest => if k2 = k then (k, v) :: rest else (k2, v2) :: setArg k v rest

/-- JavaScript truthiness of a value. -/
def truthy : Value → Bool
  | .vStr s => !s.isEmpty
  | .vNum n => n != 0
  | .vBool b => b
  | .vNull => false

/-- Truthiness of an optional property (absent = undefined = falsy). -/
def truthyOpt : Option Value → Bool
  | none => false
  | some v => truthy v

/-- process.env.DEFAULT_PATH || fallback-string, from src/src/index.ts line 119:
a missing or empty environment value falls back to the literal path. -/
def defaultPathOf (envD : Option String) : String :=
  match envD with
  | none => "/Users/honjo2/Desktop"
  | some s => if s.isEmpty then "/Users/honjo2/Desktop" else s

/-- Argument normalization of src/src/index.ts lines 116-122: parse the
classifier arguments; if the parsed object has no keys at all, set the
single key path to the configured default; otherwise leave it unchanged. -/
def normalizeArgs (envD : Option String) (args : ArgsMap) : ArgsMap :=
  if args.isEmpty then [("path", Value.vStr (defaultPathOf envD))] else args

/-- The move_file source check of src/unnamed/part_001 lines 133-135: if
source is absent or falsy in the rebuilt args object, set it to the
desktop chromebackup path.  At runtime the rebuilt object it receives is
always the empty one, see normalizeArgsV2. -/
def fillMoveSource (args : ArgsMap) : ArgsMap :=
  if truthyOpt (getArg args "source") = true then args
  else setArg "source" (Value.vStr "/Users/honjo2/Desktop/chromebackup") args

/-- The move_file destination check of src/unnamed/part_001 lines 136-138,
run after the source check on the same rebuilt args object: if destination
is absent or falsy, set it to the desktop chromebackup2 path. -/
def fillMoveDest (args : ArgsMap) : ArgsMap :=
  if truthyOpt (getArg args "destination") = true then args
  else setArg "destination" (Value.vStr "/Users/honjo2/Desktop/chromebackup2") args

/-- Argument normalization of src/unnamed/part_001 lines 114-140 as it
executes.  At runtime call.function.arguments is the JSON string of the
classifier's arguments, so for list_directory the guard that reads .path
off that string always sees undefined and the branch is always entered,
and the typeof-object test on a string is false, so args is rebuilt from
the empty object and assigned the default path: whatever the classifier
provided is discarded.  Likewise the move_file branch rebuilds args from
the empty object and both falsiness checks fire, substituting the two
defaults for whatever was provided.  Any other capability's argument
string is passed through unchanged and parses back to the provided
mapping. -/
def normalizeArgsV2 (name : String) (args : ArgsMap) : ArgsMap :=
  if name = "list_directory" then
    setArg "path" (Value.vStr "/Users/honjo2/Desktop") []
  else if name = "move_file" then fillMoveDest (fillMoveSource [])
  else args

/-- A backend entry of config.json: launch command, arguments, environment. -/
structure ServerConfig where
  command : String
  args : List String
  env : List (String × String)
  deriving DecidableEq, Repr

/-- cfg.mcpServers as Object.entries yields it: backend declaration order. -/
abbrev Config := List (String × ServerConfig)

/-- cfg.mcpServers[key]: first entry with the key, if any. -/
def lookupServer (cfg : Config) (k : String) : Option ServerConfig :=
  (cfg.find? fun p => p.1 == k).map fun p => p.2

/-- One tool as returned by a backend listTools call. -/
structure RawTool where
  name : String
  description : String
  parameters : String
  deriving DecidableEq, Repr

/-- One catalog entry: the listTools fields plus the owning backend key and
the backend-side tool name (src/src/index.ts lines 53-59). -/
structure ToolDef where
  name : String
  description : String
  parameters : String
  serverKey : String
  toolName : String
  deriving DecidableEq, Repr

/-- The map in the aggregation loop: tag a listed tool with its backend. -/
def mkToolDef (k : String) (t : RawTool) : ToolDef :=
  { name := t.name, description := t.description, parameters := t.parameters,
    serverKey := k, toolName := t.name }

/-- Transport-layer failure kinds (spec section 7 taxonomy; the source
throws them as exceptions, the kind itself is opaque to the program). -/
inductive TErr where
  | spawnFailed
  | handshakeFailed
  | timeout
  | protocolViolation
  deriving DecidableEq, Repr

/-- Observable effects of a run, in order: session open (spawn+connect),
listTools request, session close, one classifier call, one callTool
request. -/
inductive Event where
  | opened (key : String)
  | listReq (key : String)
  | closed (key : String)
  | classify (model : String)
  | callReq (key : String) (tool : String)
  deriving DecidableEq, Repr

def isOpenEv : Event → Bool
  | .opened _ => true
  | _ => false

def isCloseEv : Event → Bool
  | .closed _ => true
  | _ => false

def isListEv : Event → Bool
  | .listReq _ => true
  | _ => false

def countOpens (tr : List Event) : Nat := tr.countP isOpenEv

def countCloses (tr : List Event) : Nat := tr.countP isCloseEv

def countLists (tr : List Event) : Nat := tr.countP isListEv

/-- The models consulted, read off the trace. -/
def classifiedModels (tr : List Event) : List String :=
  tr.filterMap fun e => match e with | .classify m => some m | _ => none

/-- How many classifier calls the trace holds for one given model tier. -/
def classifyCount (m : String) (tr : List Event) : Nat :=
  tr.countP fun e => match e with | .classify m2 => m2 == m | _ => false

/-- What each backend answers to listTools (the mocked transport world). -/
abbrev ListEnv := String → Except TErr (List RawTool)

/-- getToolDefinitions of src/src/index.ts lines 31-66: for each configured
backend, open a transport and connect, list the tools, tag each with the
backend key, close the transport, and continue; a listing failure throws,
aborting the loop with that backend session still open (no close event). -/
def getToolDefinitions (cfg : Config) (lenv : ListEnv) :
    List Event × Except TErr (List ToolDef) :=
  match cfg with
  | [] => ([], .ok [])
  | (k, _) :: rest =>
    match lenv k with
    | .error e => ([.opened k, .listReq k], .error e)
    | .ok ts =>
      let r := getToolDefinitions rest lenv
      (.opened k :: .listReq k :: .closed k :: r.1,
       match r.2 with
       | .error e => .error e
       | .ok tds => .ok (ts.map (mkToolDef k) ++ tds))

/-- The classifier's structured tool call, post JSON.parse of its
arguments string (an absent arguments string parses to the empty object). -/
structure RawCall where
  name : String
  arguments : ArgsMap
  deriving DecidableEq, Repr

/-- The Selection handed to the invoker. -/
structure Selection where
  name : String
  arguments : ArgsMap
  deriving DecidableEq, Repr

/-- Failure outcomes of chooseTool and callMcpTool, as the source throws
them: a propagated transport error, the all-models-failed throw of
chooseTool line 132, the TypeError raised by reading .serverKey off the
undefined result of the unchecked find at callMcpTool line 143, the
missing-server-config throw of line 145, and a callTool failure. -/
inductive JsErr where
  | transport (e : TErr)
  | noTierProduced
  | typeErrorUndefined
  | serverNotFound (key : String)
  | callFailed (e : TErr)
  deriving DecidableEq, Repr

/-- The ranked classifier tier list of src/src/index.ts line 85. -/
def MODEL_CANDIDATES : List String := ["gpt-3.5-turbo-0125", "gpt-4o-release"]

/-- One classifier attempt per model tier: the oracle returns the first
tool call of the response, if the response carried one. -/
abbrev Oracle := String → Option RawCall

/-- The tier loop of chooseTool, lines 87-130: try each model in order;
on the first structured call, normalize its arguments and return it (the
loop ends); on a miss, record the tier and fall through to the next;
return the list of consulted tiers together with the outcome. -/
def chooseLoop (oracle : Oracle) (envD : Option String) :
    List String → List String × Except JsErr Selection
  | [] => ([], .error .noTierProduced)
  | m :: ms =>
    match oracle m with
    | some c => ([m], .ok { name := c.name, arguments := normalizeArgs envD c.arguments })
    | none =>
      let r := chooseLoop oracle envD ms
      (m :: r.1, r.2)

/-- chooseTool of src/src/index.ts lines 80-133: aggregate the catalog
(failures propagate), then run the tier loop over MODEL_CANDIDATES. -/
def chooseTool (cfg : Config) (lenv : ListEnv) (oracle : Oracle)
    (envD : Option String) : List Event × Except JsErr Selection :=
  let a := getToolDefinitions cfg lenv
  match a.2 with
  | .error e => (a.1, .error (.transport e))
  | .ok _ =>
    let r := chooseLoop oracle envD MODEL_CANDIDATES
    (a.1 ++ r.1.map Event.classify, r.2)

/-- One typed segment of a callTool response envelope. -/
inductive Content where
  | text (s : String)
  | image (data : String)
  | resource (uri : String)
  deriving DecidableEq, Repr

/-- The c.type === text test of the source filter. -/
def isText : Content → Bool
  | .text _ => true
  | _ => false

/-- The .text field, read after the filter narrowed the type. -/
def textOf : Content → String
  | .text s => s
  | _ => ""

/-- JavaScript String.prototype.trim whitespace class (space, tab, line
terminators, vertical tab, form feed, NBSP, BOM, Unicode line and
paragraph separators). -/
def isJsSpace (c : Char) : Bool :=
  c = ' ' || c = '\t' || c = '\n' || c = '\r' ||
  c = Char.ofNat 11 || c = Char.ofNat 12 || c = Char.ofNat 160 ||
  c = Char.ofNat 0xFEFF || c = Char.ofNat 0x2028 || c = Char.ofNat 0x2029

/-- JavaScript String.prototype.trim: strip the whitespace class from both
ends. -/
def trimJs (s : String) : String :=
  String.mk (((s.data.dropWhile isJsSpace).reverse.dropWhile isJsSpace).reverse)

/-- The result extraction of callMcpTool lines 162-164, exactly as the
source writes it: filter the text-typed segments, map each to its trimmed
text. -/
def extractTexts (content : List Content) : List String :=
  (content.filter fun c => isText c).map fun c => trimJs (textOf c)

/-- Modelled from the spec (section 4.4): the InvocationResult as the spec
words it, the ordered sequence of the text-typed segments of the response
content, each trimmed, every non-text segment dropped.  Kept separate from
extractTexts so the code-side extraction can be compared against it. -/
def specTextSegments (content : List Content) : List String :=
  content.filterMap fun c => match c with
    | .text s => some (trimJs s)
    | _ => none

/-- What each backend answers to a callTool request. -/
abbrev CallEnv := String → String → ArgsMap → Except TErr (List Content)

/-- callMcpTool of src/src/index.ts lines 138-165: re-aggregate the
catalog (failures propagate), resolve the name with an unchecked find
(undefined access throws a TypeError when absent), look up the server
config (throwing when missing), open a transport and connect, issue the
callTool request, and map the response to its trimmed text segments.  The
source never closes this invocation transport, so no close event follows
the open on any path of the invocation half. -/
def callMcpTool (cfg : Config) (lenv : ListEnv) (cenv : CallEnv)
    (name : String) (args : ArgsMap) : List Event × Except JsErr (List String) :=
  let a := getToolDefinitions cfg lenv
  match a.2 with
  | .error e => (a.1, .error (.transport e))
  | .ok tds =>
    match tds.find? (fun d => d.name == name) with
    | none => (a.1, .error .typeErrorUndefined)
    | some d =>
      match lookupServer cfg d.serverKey with
      | none => (a.1, .error (.serverNotFound d.serverKey))
      | some _ =>
        match cenv d.serverKey d.toolName args with
        | .error e =>
          (a.1 ++ [.opened d.serverKey, .callReq d.serverKey d.toolName],
           .error (.callFailed e))
        | .ok content =>
          (a.1 ++ [.opened d.serverKey, .callReq d.serverKey d.toolName],
           .ok (extractTexts content))

/-- One orchestrated request, main of src/src/index.ts lines 182-189:
chooseTool (which aggregates at pass 0) followed by callMcpTool on the
selection (which aggregates again, at pass 1); the listing environment is
indexed by the aggregation pass so the two passes are separate queries to
the backends. -/
def orchestrate (cfg : Config) (lenv : Nat → ListEnv) (oracle : Oracle)
    (cenv : CallEnv) (envD : Option String) :
    List Event × Except JsErr (List String) :=
  let c := chooseTool cfg (lenv 0) oracle envD
  match c.2 with
  | .error e => (c.1, .error e)
  | .ok sel =>
    let r := callMcpTool cfg (lenv 1) cenv sel.name sel.arguments
    (c.1 ++ r.1, r.2)

/-- The trace of a fully successful aggregation pass: per backend, in
declaration order, open then list then close. -/
def aggOkTr (cfg : Config) : List Event :=
  cfg.flatMap fun p => [Event.opened p.1, Event.listReq p.1, Event.closed p.1]

/-- The catalog a fully successful aggregation pass produces, when backend
k lists L k. -/
def catalogOf (cfg : Config) (L : String → List RawTool) : List ToolDef :=
  cfg.flatMap fun p => (L p.1).map (mkToolDef p.1)

/-- Every configured backend answers its listing with L. -/
def okEnv (cfg : Config) (lenv : ListEnv) (L : String → List RawTool) : Prop :=
  ∀ p ∈ cfg, lenv p.1 = .ok (L p.1)

instance okEnvDecidable (cfg : Config) (lenv : ListEnv) (L : String → List RawTool) :
    Decidable (okEnv cfg lenv L) :=
  inferInstanceAs (Decidable (∀ p ∈ cfg, lenv p.1 = .ok (L p.1)))

/-! Concrete fixtures used by witnesses and counterexamples. -/

/-- A filesystem backend entry as config.json declares it. -/
def scFs : ServerConfig :=
  { command := "npx",
    args := ["-y", "@modelcontextprotocol/server-filesystem", "/Users/honjo2/Desktop"],
    env := [] }

/-- A one-backend configuration. -/
def cfg1 : Config := [("filesystem", scFs)]

/-- A two-backend configuration. -/
def cfg2 : Config := [("filesystem", scFs), ("git", scFs)]

/-- The list_directory tool as a backend lists it. -/
def tLs : RawTool :=
  { name := "list_directory", description := "list entries of a directory",
    parameters := "schema" }

/-- The move_file tool as a backend lists it. -/
def tMv : RawTool :=
  { name := "move_file", description := "move or rename a file",
    parameters := "schema" }

/-- A git status tool as a backend lists it. -/
def tSt : RawTool :=
  { name := "git_status", description := "show the working tree status",
    parameters := "schema" }

/-- Listings for the fixtures: filesystem has two tools, git has one. -/
def Lfix : String → List RawTool :=
  fun k => if k = "filesystem" then [tLs, tMv] else if k = "git" then [tSt] else []

/-- A listing environment in which every backend answers Lfix. -/
def lenvOk : ListEnv := fun k => .ok (Lfix k)

/-- A listing environment in which every listing times out. -/
def lenvBad : ListEnv := fun _ => .error .timeout

/-- An alternative listing used to exhibit a second aggregation pass that
differs from the first: filesystem now lists only move_file. -/
def Lalt : String → List RawTool := fun _ => [tMv]

/-- A pass-indexed listing environment: pass 0 sees Lfix, pass 1 Lalt. -/
def lenvTwo : Nat → ListEnv :=
  fun pass => if pass = 0 then lenvOk else fun k => .ok (Lalt k)

/-- A call environment scripting one response with mixed segment types. -/
def cenvScript : CallEnv :=
  fun _ _ _ => .ok [Content.text "  a.txt\n", Content.image "iVBOR", Content.text "b.txt "]

/-- An oracle whose first tier misses and whose second tier picks
list_directory with an explicit path. -/
def oracleSecond : Oracle := fun m =>
  if m = "gpt-4o-release" then
    some { name := "list_directory", arguments := [("path", Value.vStr "/tmp")] }
  else none

/-- An oracle whose first tier already picks move_file. -/
def oracleFirst : Oracle := fun m =>
  if m = "gpt-3.5-turbo-0125" then
    some { name := "move_file", arguments := [("source", Value.vStr "/tmp/a")] }
  else none

/-- An oracle on which every tier misses. -/
def oracleNone : Oracle := fun _ => none

/-! Helper lemmas about the embedded operations. -/

theorem getArg_setArg_self (k : String) (v : Value) (m : ArgsMap) :
    getArg (setArg k v m) k = some v := by
  induction m with
  | nil => simp [setArg, getArg]
  | cons hd tl ih =>
    obtain ⟨k2, v2⟩ := hd
    by_cases h : k2 = k
    · simp [setArg, h, getArg]
    · simp [setArg, h, getArg, ih]

theorem getArg_setArg_ne (k k2 : String) (v : Value) (m : ArgsMap) (h : k2 ≠ k) :
    getArg (setArg k v m) k2 = getArg m k2 := by
  induction m with
  | nil => simp [setArg, getArg, Ne.symm h]
  | cons hd tl ih =>
    obtain ⟨k3, v3⟩ := hd
    by_cases h3 : k3 = k
    · subst h3
      simp [setArg, getArg, Ne.symm h, h]
    · by_cases h2 : k3 = k2
      · simp [setArg, getArg, h3, h2, h]
      · simp [setArg, getArg, h3, h2, ih]

theorem truthyOpt_fillMoveSource (args : ArgsMap) :
    truthyOpt (getArg (fillMoveSource args) "source") = true := by
  rw [fillMoveSource]
  split_ifs with h
  · exact h
  · rw [getArg_setArg_self]
    decide

theorem getArg_fillMoveSource_ne (args : ArgsMap) (k : String) (hk : k ≠ "source") :
    getArg (fillMoveSource args) k = getArg args k := by
  rw [fillMoveSource]
  split_ifs with h
  · rfl
  · exact getArg_setArg_ne "source" k _ args hk

theorem truthyOpt_fillMoveDest (args : ArgsMap) :
    truthyOpt (getArg (fillMoveDest args) "destination") = true := by
  rw [fillMoveDest]
  split_ifs with h
  · exact h
  · rw [getArg_setArg_self]
    decide

theorem getArg_fillMoveDest_ne (args : ArgsMap) (k : String) (hk : k ≠ "destination") :
    getArg (fillMoveDest args) k = getArg args k := by
  rw [fillMoveDest]
  split_ifs with h
  · rfl
  · exact getArg_setArg_ne "destination" k _ args hk

theorem chooseLoop_miss_all (oracle : Oracle) (envD : Option String) (ms : List String)
    (h : ∀ m ∈ ms, oracle m = none) :
    chooseLoop oracle envD ms = (ms, .error .noTierProduced) := by
  induction ms with
  | nil => simp [chooseLoop]
  | cons m ms ih =>
    have hm := h m (by simp)
    have hrest : ∀ x ∈ ms, oracle x = none := fun x hx => h x (by simp [hx])
    simp [chooseLoop, hm, ih hrest]

theorem chooseLoop_first_hit (oracle : Oracle) (envD : Option String)
    (ms1 ms2 : List String) (m0 : String) (c : RawCall)
    (hmiss : ∀ m ∈ ms1, oracle m = none) (hhit : oracle m0 = some c) :
    chooseLoop oracle envD (ms1 ++ m0 :: ms2) =
      (ms1 ++ [m0],
       .ok { name := c.name, arguments := normalizeArgs envD c.arguments }) := by
  induction ms1 with
  | nil => simp [chooseLoop, hhit]
  | cons m ms ih =>
    have hm := hmiss m (by simp)
    have hrest : ∀ x ∈ ms, oracle x = none := fun x hx => hmiss x (by simp [hx])
    simp [chooseLoop, hm, ih hrest]

theorem chooseLoop_error_iff (oracle : Oracle) (envD : Option String) (ms : List String) :
    (chooseLoop oracle envD ms).2 = .error .noTierProduced ↔
      ∀ m ∈ ms, oracle m = none := by
  induction ms with
  | nil => simp [chooseLoop]
  | cons m ms ih =>
    cases hm : oracle m with
    | some c =>
      constructor
      · intro h
        simp [chooseLoop, hm] at h
      · intro h
        have hx := h m (by simp)
        rw [hm] at hx
        exact absurd hx (by simp)
    | none => simp [chooseLoop, hm, ih, List.forall_mem_cons]

theorem chooseLoop_tried_take (oracle : Oracle) (envD : Option String) (ms : List String) :
    ∃ n, (chooseLoop oracle envD ms).1 = ms.take n := by
  induction ms with
  | nil => exact ⟨0, rfl⟩
  | cons m ms ih =>
    cases hm : oracle m with
    | some c => exact ⟨1, by simp [chooseLoop, hm]⟩
    | none =>
      obtain ⟨n, hn⟩ := ih
      exact ⟨n + 1, by simp [chooseLoop, hm, hn, List.take_succ_cons]⟩

theorem getToolDefinitions_ok (cfg : Config) (lenv : ListEnv)
    (L : String → List RawTool) (h : okEnv cfg lenv L) :
    getToolDefinitions cfg lenv = (aggOkTr cfg, .ok (catalogOf cfg L)) := by
  induction cfg with
  | nil => simp [getToolDefinitions, aggOkTr, catalogOf]
  | cons p rest ih =>
    obtain ⟨k, sc⟩ := p
    have hk : lenv k = .ok (L k) := h (k, sc) (by simp)
    have hrest : okEnv rest lenv L := fun q hq => h q (by simp [hq])
    simp [getToolDefinitions, hk, ih hrest, aggOkTr, catalogOf]

theorem length_catalogOf (cfg : Config) (L : String → List RawTool) :
    (catalogOf cfg L).length = (cfg.map fun p => (L p.1).length).sum := by
  induction cfg with
  | nil => simp [catalogOf]
  | cons p rest ih =>
    simp only [catalogOf, List.flatMap_cons, List.length_append, List.length_map,
      List.map_cons, List.sum_cons] at ih ⊢
    rw [ih]

theorem mem_catalogOf (cfg : Config) (L : String → List RawTool) (d : ToolDef)
    (hd : d ∈ catalogOf cfg L) : ∃ p ∈ cfg, ∃ t ∈ L p.1, d = mkToolDef p.1 t := by
  rw [catalogOf, List.mem_flatMap] at hd
  obtain ⟨p, hp, hmem⟩ := hd
  rw [List.mem_map] at hmem
  obtain ⟨t, ht, rfl⟩ := hmem
  exact ⟨p, hp, t, ht, rfl⟩

theorem countOpens_aggOkTr (cfg : Config) : countOpens (aggOkTr cfg) = cfg.length := by
  induction cfg with
  | nil => simp [aggOkTr, countOpens]
  | cons p rest ih =>
    simp [aggOkTr, countOpens, List.flatMap_cons, List.countP_append,
      List.countP_cons, isOpenEv] at ih ⊢
    omega

theorem countCloses_aggOkTr (cfg : Config) : countCloses (aggOkTr cfg) = cfg.length := by
  induction cfg with
  | nil => simp [aggOkTr, countCloses]
  | cons p rest ih =>
    simp [aggOkTr, countCloses, List.flatMap_cons, List.countP_append,
      List.countP_cons, isCloseEv] at ih ⊢
    omega

theorem countLists_aggOkTr (cfg : Config) : countLists (aggOkTr cfg) = cfg.length := by
  induction cfg with
  | nil => simp [aggOkTr, countLists]
  | cons p rest ih =>
    simp [aggOkTr, countLists, List.flatMap_cons, List.countP_append,
      List.countP_cons, isListEv] at ih ⊢
    omega

theorem callReq_not_mem_aggOkTr (cfg : Config) (k t : String) :
    Event.callReq k t ∉ aggOkTr cfg := by
  induction cfg with
  | nil => simp [aggOkTr]
  | cons p rest ih => simp [aggOkTr, List.flatMap_cons, ih]

theorem classifiedModels_aggTrace (cfg : Config) (lenv : ListEnv) :
    classifiedModels (getToolDefinitions cfg lenv).1 = [] := by
  induction cfg with
  | nil => simp [getToolDefinitions, classifiedModels]
  | cons p rest ih =>
    obtain ⟨k, sc⟩ := p
    cases hk : lenv k with
    | error e => simp [getToolDefinitions, hk, classifiedModels]
    | ok ts => simp [getToolDefinitions, hk, classifiedModels] at ih ⊢; exact ih

theorem classifyCount_aggTrace (cfg : Config) (lenv : ListEnv) (m : String) :
    classifyCount m (getToolDefinitions cfg lenv).1 = 0 := by
  induction cfg with
  | nil => simp [getToolDefinitions, classifyCount]
  | cons p rest ih =>
    obtain ⟨k, sc⟩ := p
    cases hk : lenv k with
    | error e => simp [getToolDefinitions, hk, classifyCount]
    | ok ts =>
      simp [getToolDefinitions, hk, classifyCount, List.countP_cons] at ih ⊢
      exact ih

theorem classifiedModels_map_classify (l : List String) :
    classifiedModels (l.map Event.classify) = l := by
  induction l with
  | nil => simp [classifiedModels]
  | cons m ms ih => simp [classifiedModels] at ih ⊢; exact ih

theorem classifyCount_map_classify (m : String) (l : List String) :
    classifyCount m (l.map Event.classify) = l.count m := by
  induction l with
  | nil => simp [classifyCount]
  | cons x xs ih =>
    simp [classifyCount, List.countP_cons, List.count_cons] at ih ⊢
    omega

theorem classifiedModels_append (tr1 tr2 : List Event) :
    classifiedModels (tr1 ++ tr2) = classifiedModels tr1 ++ classifiedModels tr2 := by
  simp [classifiedModels, List.filterMap_append]

theorem classifyCount_append (m : String) (tr1 tr2 : List Event) :
    classifyCount m (tr1 ++ tr2) = classifyCount m tr1 + classifyCount m tr2 := by
  simp [classifyCount, List.countP_append]

theorem count_MODEL_CANDIDATES_le_one (m : String) : MODEL_CANDIDATES.count m ≤ 1 := by
  by_cases h1 : m = "gpt-3.5-turbo-0125"
  · subst h1; decide
  · by_cases h2 : m = "gpt-4o-release"
    · subst h2; decide
    · have h1b : ¬"gpt-3.5-turbo-0125" = m := fun hx => h1 hx.symm
      have h2b : ¬"gpt-4o-release" = m := fun hx => h2 hx.symm
      simp [List.count_cons, MODEL_CANDIDATES, h1b, h2b]

theorem extractTexts_eq_spec (content : List Content) :
    extractTexts content = specTextSegments content := by
  induction content with
  | nil => simp [extractTexts, specTextSegments]
  | cons c rest ih =>
    cases c <;> simp [extractTexts, specTextSegments, isText, textOf] at ih ⊢ <;> exact ih

theorem getToolDefinitions_take_bound (cfg : Config) (lenv : ListEnv) :
    ∀ n, countOpens ((getToolDefinitions cfg lenv).1.take n) ≤
      countCloses ((getToolDefinitions cfg lenv).1.take n) + 1 := by
  induction cfg with
  | nil => intro n; simp [getToolDefinitions, countOpens, countCloses]
  | cons p rest ih =>
    obtain ⟨k, sc⟩ := p
    intro n
    cases hk : lenv k with
    | error e =>
      rcases n with _ | _ | n <;>
        simp [getToolDefinitions, hk, countOpens, countCloses, List.take_succ_cons,
          List.countP_cons, isOpenEv, isCloseEv]
    | ok ts =>
      rcases n with _ | _ | _ | n
      · simp [getToolDefinitions, hk, countOpens, countCloses]
      · simp [getToolDefinitions, hk, countOpens, countCloses, List.take_succ_cons,
          List.countP_cons, isOpenEv, isCloseEv]
      · simp [getToolDefinitions, hk, countOpens, countCloses, List.take_succ_cons,
          List.countP_cons, isOpenEv, isCloseEv]
      · have := ih n
        simp [getToolDefinitions, hk, countOpens, countCloses, List.take_succ_cons,
          List.countP_cons, isOpenEv, isCloseEv] at this ⊢
        omega

theorem getToolDefinitions_error_shape (cfg : Config) (lenv : ListEnv) (e : TErr)
    (h : (getToolDefinitions cfg lenv).2 = .error e) :
    ∃ pre k, (getToolDefinitions cfg lenv).1 = pre ++ [Event.opened k, Event.listReq k] ∧
      countOpens pre = countCloses pre := by
  induction cfg with
  | nil => simp [getToolDefinitions] at h
  | cons p rest ih =>
    obtain ⟨k, sc⟩ := p
    cases hk : lenv k with
    | error e2 =>
      refine ⟨[], k, ?_, rfl⟩
      simp [getToolDefinitions, hk]
    | ok ts =>
      have hrest : (getToolDefinitions rest lenv).2 = .error e := by
        simp [getToolDefinitions, hk] at h
        cases hr : (getToolDefinitions rest lenv).2 with
        | error e3 => rw [hr] at h; simpa using h
        | ok tds => rw [hr] at h; simp at h
      obtain ⟨pre, k2, hpre, hcount⟩ := ih hrest
      refine ⟨Event.opened k :: Event.listReq k :: Event.closed k :: pre, k2, ?_, ?_⟩
      · simp [getToolDefinitions, hk, hpre]
      · simp [countOpens, countCloses, List.countP_cons, isOpenEv, isCloseEv] at hcount ⊢
        omega

theorem callMcpTool_trace_shape (cfg : Config) (lenv : ListEnv) (cenv : CallEnv)
    (L : String → List RawTool) (name : String) (args : ArgsMap) (h : okEnv cfg lenv L) :
    ∃ tail, (callMcpTool cfg lenv cenv name args).1 = aggOkTr cfg ++ tail ∧
      countLists tail = 0 := by
  have hok := getToolDefinitions_ok cfg lenv L h
  cases hfind : (catalogOf cfg L).find? (fun d => d.name == name) with
  | none => exact ⟨[], by simp [callMcpTool, hok, hfind], by simp [countLists]⟩
  | some d =>
    cases hsrv : lookupServer cfg d.serverKey with
    | none => exact ⟨[], by simp [callMcpTool, hok, hfind, hsrv], by simp [countLists]⟩
    | some sc =>
      cases hc : cenv d.serverKey d.toolName args with
      | error e =>
        refine ⟨[Event.opened d.serverKey, Event.callReq d.serverKey d.toolName], ?_, ?_⟩
        · simp [callMcpTool, hok, hfind, hsrv, hc]
        · simp [countLists, List.countP_cons, isListEv]
      | ok content =>
        refine ⟨[Event.opened d.serverKey, Event.callReq d.serverKey d.toolName], ?_, ?_⟩
        · simp [callMcpTool, hok, hfind, hsrv, hc]
        · simp [countLists, List.countP_cons, isListEv]

/-! Claim theorems. -/

/-- C2: for every configuration whose backends all answer their listing,
getToolDefinitions returns the catalog that concatenates, in backend
declaration order, each backend's listed tools in listing order, each
entry tagged with its owning backend key, and its length equals the sum
of the per-backend listing counts. -/
theorem getToolDefinitions_catalog_aggregation (cfg : Config) (lenv : ListEnv)
    (L : String → List RawTool) (h : okEnv cfg lenv L) :
    ∃ tds, (getToolDefinitions cfg lenv).2 = .ok tds ∧
      tds = cfg.flatMap (fun p => (L p.1).map (mkToolDef p.1)) ∧
      tds.length = (cfg.map fun p => (L p.1).length).sum ∧
      ∀ d ∈ tds, ∃ p ∈ cfg, ∃ t ∈ L p.1, d = mkToolDef p.1 t ∧ d.serverKey = p.1 := by
  refine ⟨catalogOf cfg L, ?_, rfl, ?_, ?_⟩
  · rw [getToolDefinitions_ok cfg lenv L h]
  · exact length_catalogOf cfg L
  · intro d hd
    obtain ⟨p, hp, t, ht, rfl⟩ := mem_catalogOf cfg L d hd
    exact ⟨p, hp, t, ht, rfl, rfl⟩

/-- Witness for C2 at a concrete two-backend configuration. -/
theorem getToolDefinitions_catalog_aggregation_witness :
    okEnv cfg2 lenvOk Lfix ∧
      ∃ tds, (getToolDefinitions cfg2 lenvOk).2 = .ok tds ∧
        tds = cfg2.flatMap (fun p => (Lfix p.1).map (mkToolDef p.1)) ∧
        tds.length = (cfg2.map fun p => (Lfix p.1).length).sum ∧
        ∀ d ∈ tds, ∃ p ∈ cfg2, ∃ t ∈ Lfix p.1, d = mkToolDef p.1 t ∧ d.serverKey = p.1 :=
  ⟨by decide, getToolDefinitions_catalog_aggregation cfg2 lenvOk Lfix (by decide)⟩

/-- C3: when a classifier tier returns a structured selection, chooseTool
returns that tier's selection (with its arguments normalized) and never
calls any later tier: the consulted tiers are exactly the misses before
the hit plus the hit itself, and the tiers after the hit see no call. -/
theorem chooseTool_first_structured_selection (cfg : Config) (lenv : ListEnv)
    (L : String → List RawTool) (oracle : Oracle) (envD : Option String)
    (ms1 ms2 : List String) (m0 : String) (c : RawCall)
    (hagg : okEnv cfg lenv L)
    (hdec : MODEL_CANDIDATES = ms1 ++ m0 :: ms2)
    (hmiss : ∀ m ∈ ms1, oracle m = none)
    (hhit : oracle m0 = some c) :
    chooseTool cfg lenv oracle envD =
      (aggOkTr cfg ++ (ms1 ++ [m0]).map Event.classify,
       .ok { name := c.name, arguments := normalizeArgs envD c.arguments }) := by
  simp [chooseTool, getToolDefinitions_ok cfg lenv L hagg, hdec,
    chooseLoop_first_hit oracle envD ms1 ms2 m0 c hmiss hhit]

/-- Witness for C3: the first tier misses, the second hits; exactly those
two classifier calls appear and the provided path argument is kept. -/
theorem chooseTool_first_structured_selection_witness :
    chooseTool cfg1 lenvOk oracleSecond none =
      (aggOkTr cfg1 ++ (["gpt-3.5-turbo-0125"] ++ ["gpt-4o-release"]).map Event.classify,
       .ok { name := "list_directory",
             arguments := normalizeArgs none [("path", Value.vStr "/tmp")] }) :=
  chooseTool_first_structured_selection cfg1 lenvOk Lfix oracleSecond none
    ["gpt-3.5-turbo-0125"] [] "gpt-4o-release"
    { name := "list_directory", arguments := [("path", Value.vStr "/tmp")] }
    (by decide) (by decide) (by decide) (by decide)

/-- C4: chooseTool fails with the all-models error exactly when every model
tier was consulted and produced no structured call, and no tier is ever
consulted more than once per request. -/
theorem chooseTool_exhaustion (cfg : Config) (lenv : ListEnv) (oracle : Oracle)
    (envD : Option String) :
    ((chooseTool cfg lenv oracle envD).2 = .error .noTierProduced ↔
      classifiedModels (chooseTool cfg lenv oracle envD).1 = MODEL_CANDIDATES ∧
        ∀ m ∈ MODEL_CANDIDATES, oracle m = none) ∧
    ∀ m : String, classifyCount m (chooseTool cfg lenv oracle envD).1 ≤ 1 := by
  cases hagg : (getToolDefinitions cfg lenv).2 with
  | error e =>
    have htr : chooseTool cfg lenv oracle envD =
        ((getToolDefinitions cfg lenv).1, .error (.transport e)) := by
      simp [chooseTool, hagg]
    rw [htr]
    refine ⟨⟨fun hx => absurd hx (by simp), fun hx => ?_⟩, fun m => ?_⟩
    · have h1 := hx.1
      rw [classifiedModels_aggTrace] at h1
      exact absurd h1 (by decide)
    · have h0 := classifyCount_aggTrace cfg lenv m
      simp [h0]
  | ok tds =>
    have htr : chooseTool cfg lenv oracle envD =
        ((getToolDefinitions cfg lenv).1 ++
          (chooseLoop oracle envD MODEL_CANDIDATES).1.map Event.classify,
         (chooseLoop oracle envD MODEL_CANDIDATES).2) := by
      simp [chooseTool, hagg]
    rw [htr]
    refine ⟨⟨fun hx => ?_, fun hx => ?_⟩, fun m => ?_⟩
    · have hmiss := (chooseLoop_error_iff oracle envD MODEL_CANDIDATES).mp hx
      have hloop := chooseLoop_miss_all oracle envD MODEL_CANDIDATES hmiss
      refine ⟨?_, hmiss⟩
      rw [classifiedModels_append, classifiedModels_aggTrace, hloop,
        classifiedModels_map_classify]
      simp
    · have hloop := chooseLoop_miss_all oracle envD MODEL_CANDIDATES hx.2
      rw [hloop]
    · rw [classifyCount_append, classifyCount_aggTrace]
      obtain ⟨n, hn⟩ := chooseLoop_tried_take oracle envD MODEL_CANDIDATES
      rw [hn, classifyCount_map_classify]
      have hle := (List.take_sublist n MODEL_CANDIDATES).count_le m
      have hle2 := count_MODEL_CANDIDATES_le_one m
      omega

/-- Witness for C4: with an oracle on which both tiers miss, chooseTool
fails with the all-models error. -/
theorem chooseTool_exhaustion_witness :
    (chooseTool cfg1 lenvOk oracleNone none).2 = .error .noTierProduced :=
  (chooseTool_exhaustion cfg1 lenvOk oracleNone none).1.mpr ⟨by decide, by decide⟩

/-- C5: evaluation of the part_001 runtime normalization at provided
truthy arguments.  For list_directory the provided path is discarded and
replaced by the default, and for move_file the provided source and
destination are discarded and replaced by the two defaults: defaults do
override values the classifier provided, against the claim and the spec's
never-override rule.  The index.ts normalizeArgs at the same input keeps
the provided binding, since it fills only when the parsed object is
empty. -/
theorem normalizeArgsV2_overrides_eval :
    normalizeArgsV2 "list_directory" [("path", Value.vStr "/tmp")] =
      [("path", Value.vStr "/Users/honjo2/Desktop")] ∧
    normalizeArgsV2 "move_file"
        [("source", Value.vStr "/tmp/a"), ("destination", Value.vStr "/tmp/b")] =
      [("source", Value.vStr "/Users/honjo2/Desktop/chromebackup"),
       ("destination", Value.vStr "/Users/honjo2/Desktop/chromebackup2")] ∧
    normalizeArgs none [("path", Value.vStr "/tmp")] =
      [("path", Value.vStr "/tmp")] := by
  decide

/-- C6: both argument normalizations are idempotent for every capability
name and every argument mapping: the part_001 runtime normalization
replaces the arguments by a constant mapping for the two special names
and is the identity otherwise, and the index.ts normalization fills only
the empty mapping, whose filled form is nonempty. -/
theorem normalize_idempotent (envD : Option String) (name : String) (args : ArgsMap) :
    normalizeArgsV2 name (normalizeArgsV2 name args) = normalizeArgsV2 name args ∧
    normalizeArgs envD (normalizeArgs envD args) = normalizeArgs envD args := by
  constructor
  · by_cases h1 : name = "list_directory"
    · subst h1
      simp [normalizeArgsV2]
    · by_cases h2 : name = "move_file"
      · subst h2
        simp [normalizeArgsV2]
      · simp [normalizeArgsV2, h1, h2]
  · cases args with
    | nil => simp [normalizeArgs]
    | cons a l => simp [normalizeArgs]

/-- C7 counterexample: invoking a name absent from the catalog does fail,
but with the TypeError of the unchecked find (reading .serverKey off
undefined), not a structured UnknownCapability error, and subprocesses
were spawned before the failure: the re-aggregation inside callMcpTool
opened a session, so the open count of the trace is not zero. -/
theorem callMcpTool_unknown_counterexample :
    (callMcpTool cfg1 lenvOk cenvScript "no_such_tool" []).2 =
      .error .typeErrorUndefined ∧
    countOpens (callMcpTool cfg1 lenvOk cenvScript "no_such_tool" []).1 ≠ 0 := by
  decide

/-- C7 amended: invoking a Selection whose capability name is not in the
catalog fails with the TypeError from the unchecked catalog lookup, and
the invocation half opens no Session and issues no call: the whole trace
is exactly the re-aggregation pass, in which every opened session was
closed again. -/
theorem callMcpTool_unknown_amended (cfg : Config) (lenv : ListEnv) (cenv : CallEnv)
    (L : String → List RawTool) (name : String) (args : ArgsMap)
    (hagg : okEnv cfg lenv L)
    (habs : ∀ p ∈ cfg, ∀ t ∈ L p.1, t.name ≠ name) :
    callMcpTool cfg lenv cenv name args = (aggOkTr cfg, .error .typeErrorUndefined) ∧
    countOpens (aggOkTr cfg) = countCloses (aggOkTr cfg) ∧
    ∀ k t, Event.callReq k t ∉ aggOkTr cfg := by
  have hfind : (catalogOf cfg L).find? (fun d => d.name == name) = none := by
    rw [List.find?_eq_none]
    intro d hd
    obtain ⟨p, hp, t, ht, rfl⟩ := mem_catalogOf cfg L d hd
    simpa [mkToolDef] using habs p hp t ht
  refine ⟨?_, ?_, callReq_not_mem_aggOkTr cfg⟩
  · simp [callMcpTool, getToolDefinitions_ok cfg lenv L hagg, hfind]
  · rw [countOpens_aggOkTr, countCloses_aggOkTr]

/-- Witness for the amended C7 at a concrete configuration whose catalog
lacks the requested name. -/
theorem callMcpTool_unknown_amended_witness :
    callMcpTool cfg1 lenvOk cenvScript "git_status" [] =
      (aggOkTr cfg1, .error .typeErrorUndefined) :=
  (callMcpTool_unknown_amended cfg1 lenvOk cenvScript Lfix "git_status" []
    (by decide) (by decide)).1

/-- C8: on a successful call, the InvocationResult of callMcpTool is the
ordered sequence of the text-typed segments of the response content, each
trimmed; the code-side extraction coincides with the spec-side
specTextSegments, which is order preserving over concatenation, maps a
text segment to its trimmed text, and drops every non-text segment
without error. -/
theorem callMcpTool_text_result (cfg : Config) (lenv : ListEnv) (cenv : CallEnv)
    (name : String) (args : ArgsMap) (tds : List ToolDef) (d : ToolDef)
    (sc : ServerConfig) (content : List Content)
    (hagg : (getToolDefinitions cfg lenv).2 = .ok tds)
    (hfind : tds.find? (fun x => x.name == name) = some d)
    (hsrv : lookupServer cfg d.serverKey = some sc)
    (hcall : cenv d.serverKey d.toolName args = .ok content) :
    (callMcpTool cfg lenv cenv name args).2 = .ok (extractTexts content) ∧
    extractTexts content = specTextSegments content ∧
    (∀ xs ys, specTextSegments (xs ++ ys) =
      specTextSegments xs ++ specTextSegments ys) ∧
    (∀ s, specTextSegments [Content.text s] = [trimJs s]) ∧
    ∀ c2, isText c2 = false → specTextSegments [c2] = [] := by
  refine ⟨?_, extractTexts_eq_spec content, ?_, ?_, ?_⟩
  · simp [callMcpTool, hagg, hfind, hsrv, hcall]
  · intro xs ys
    simp [specTextSegments, List.filterMap_append]
  · intro s
    simp [specTextSegments]
  · intro c2 hc2
    cases c2 with
    | text s => simp [isText] at hc2
    | image data => simp [specTextSegments]
    | resource uri => simp [specTextSegments]

/-- Witness for C8 on a scripted response holding two text segments with
surrounding whitespace and one image segment between them. -/
theorem callMcpTool_text_result_witness :
    (callMcpTool cfg1 lenvOk cenvScript "list_directory" []).2 =
      .ok (extractTexts [Content.text "  a.txt\n", Content.image "iVBOR",
        Content.text "b.txt "]) :=
  (callMcpTool_text_result cfg1 lenvOk cenvScript "list_directory" []
    (catalogOf cfg1 Lfix) (mkToolDef "filesystem" tLs) scFs
    [Content.text "  a.txt\n", Content.image "iVBOR", Content.text "b.txt "]
    (by decide) (by decide) (by decide) (by decide)).1

/-- C9 counterexample: when a backend's listing fails, getToolDefinitions
aborts with the failed backend's session still open: the trace's open and
close counts differ, so the session is not closed on every code path. -/
theorem getToolDefinitions_close_counterexample :
    (getToolDefinitions cfg1 lenvBad).2 = .error .timeout ∧
    countOpens (getToolDefinitions cfg1 lenvBad).1 ≠
      countCloses (getToolDefinitions cfg1 lenvBad).1 := by
  decide

/-- C9 amended: during an aggregation pass at most one session is open at
any instant (on every path); on the success path each backend's session is
opened, listed and closed before the next backend's session is opened, in
declaration order; but when a listing fails the pass aborts with that
backend's session left open - the trace ends in an open and list with no
matching close, all earlier sessions being closed - and no later backend
session is opened. -/
theorem getToolDefinitions_session_discipline (cfg : Config) (lenv : ListEnv)
    (L : String → List RawTool) :
    (∀ n, countOpens ((getToolDefinitions cfg lenv).1.take n) ≤
      countCloses ((getToolDefinitions cfg lenv).1.take n) + 1) ∧
    (okEnv cfg lenv L → (getToolDefinitions cfg lenv).1 =
      cfg.flatMap fun p => [Event.opened p.1, Event.listReq p.1, Event.closed p.1]) ∧
    ∀ e, (getToolDefinitions cfg lenv).2 = .error e →
      ∃ pre k, (getToolDefinitions cfg lenv).1 =
          pre ++ [Event.opened k, Event.listReq k] ∧
        countOpens pre = countCloses pre := by
  refine ⟨getToolDefinitions_take_bound cfg lenv, ?_,
    getToolDefinitions_error_shape cfg lenv⟩
  intro h
  rw [getToolDefinitions_ok cfg lenv L h]
  rfl

/-- Witness for the amended C9: on a fully successful two-backend pass the
trace is the per-backend open, list, close blocks in declaration order. -/
theorem getToolDefinitions_session_discipline_witness :
    (getToolDefinitions cfg2 lenvOk).1 =
      cfg2.flatMap fun p => [Event.opened p.1, Event.listReq p.1, Event.closed p.1] :=
  (getToolDefinitions_session_discipline cfg2 lenvOk Lfix).2.1 (by decide)

/-- C1: evaluation of callMcpTool at a concrete successful invocation.
The call succeeds and returns the trimmed text segments, yet the trace
holds two opens (one from the re-aggregation, one for the invocation) and
only one close (the aggregation one): the invocation session is never
closed, so open and close calls do not match 1:1 even on success. -/
theorem callMcpTool_never_closes_eval :
    (callMcpTool cfg1 lenvOk cenvScript "list_directory" []).2 =
      .ok ["a.txt", "b.txt"] ∧
    countOpens (callMcpTool cfg1 lenvOk cenvScript "list_directory" []).1 = 2 ∧
    countCloses (callMcpTool cfg1 lenvOk cenvScript "list_directory" []).1 = 1 := by
  decide

/-- C10: one orchestrated request aggregates the catalog twice: chooseTool
runs a full pass (pass 0), and callMcpTool re-runs a full pass (pass 1) to
resolve the selection, so the trace carries both passes, the listTools
count is twice the number of configured backends, and the invocation half
is exactly callMcpTool evaluated against the fresh pass-1 listing
environment. -/
theorem orchestrate_reaggregates (cfg : Config) (lenv : Nat → ListEnv)
    (oracle : Oracle) (cenv : CallEnv) (envD : Option String)
    (L0 L1 : String → List RawTool) (c : RawCall)
    (h0 : okEnv cfg (lenv 0) L0)
    (hhit : oracle "gpt-3.5-turbo-0125" = some c)
    (h1 : okEnv cfg (lenv 1) L1) :
    orchestrate cfg lenv oracle cenv envD =
      (aggOkTr cfg ++ [Event.classify "gpt-3.5-turbo-0125"] ++
        (callMcpTool cfg (lenv 1) cenv c.name (normalizeArgs envD c.arguments)).1,
       (callMcpTool cfg (lenv 1) cenv c.name (normalizeArgs envD c.arguments)).2) ∧
    countLists (orchestrate cfg lenv oracle cenv envD).1 = 2 * cfg.length := by
  have hloop : chooseLoop oracle envD MODEL_CANDIDATES =
      (["gpt-3.5-turbo-0125"],
       .ok { name := c.name, arguments := normalizeArgs envD c.arguments }) :=
    chooseLoop_first_hit oracle envD [] ["gpt-4o-release"] "gpt-3.5-turbo-0125" c
      (by simp) hhit
  have hchoose : chooseTool cfg (lenv 0) oracle envD =
      (aggOkTr cfg ++ [Event.classify "gpt-3.5-turbo-0125"],
       .ok { name := c.name, arguments := normalizeArgs envD c.arguments }) := by
    simp [chooseTool, getToolDefinitions_ok cfg (lenv 0) L0 h0, hloop]
  have horch : orchestrate cfg lenv oracle cenv envD =
      ((aggOkTr cfg ++ [Event.classify "gpt-3.5-turbo-0125"]) ++
        (callMcpTool cfg (lenv 1) cenv c.name (normalizeArgs envD c.arguments)).1,
       (callMcpTool cfg (lenv 1) cenv c.name (normalizeArgs envD c.arguments)).2) := by
    simp [orchestrate, hchoose]
  constructor
  · rw [horch]
  · obtain ⟨tail, htail, hcount⟩ :=
      callMcpTool_trace_shape cfg (lenv 1) cenv L1 c.name
        (normalizeArgs envD c.arguments) h1
    have ha := countLists_aggOkTr cfg
    have hcls : countLists [Event.classify "gpt-3.5-turbo-0125"] = 0 := by decide
    rw [horch]
    show countLists ((aggOkTr cfg ++ [Event.classify "gpt-3.5-turbo-0125"]) ++
      (callMcpTool cfg (lenv 1) cenv c.name (normalizeArgs envD c.arguments)).1) =
        2 * cfg.length
    rw [htail]
    simp only [countLists, List.countP_append] at ha hcount hcls ⊢
    omega

/-- Witness for C10: with a pass-indexed environment whose two passes list
different catalogs, the orchestrated request issues two listTools calls
for the single configured backend, and the two listings indeed differ. -/
theorem orchestrate_reaggregates_witness :
    countLists (orchestrate cfg1 lenvTwo oracleFirst cenvScript none).1 =
      2 * cfg1.length ∧
    Lfix "filesystem" ≠ Lalt "filesystem" :=
  ⟨(orchestrate_reaggregates cfg1 lenvTwo oracleFirst cenvScript none Lfix Lalt
      { name := "move_file", arguments := [("source", Value.vStr "/tmp/a")] }
      (by decide) (by decide) (by decide)).2,
   by decide⟩

end McpClient
